import Mathlib

/-!
Gamepad extension (`extensions/gamepad.js`): input normalisation.

A shallow embedding of the query side of the extension: device selection,
button and axis readings filtered by the two process-wide deadzone thresholds,
and the reductions over all matched devices.

Modelling conventions.

* A JavaScript number is a rational (`ℚ`): every finite double is a rational,
  and comparison, `Math.abs` and selection are exact on doubles.  Where the
  source performs arithmetic (`+`, `*`, `/`), the result is passed through the
  host's rounding `JSMath.rnd`; the host's `Math.sqrt`, `Math.atan2`,
  `Math.PI` and the `**` operator are the other fields of `JSMath`.
  `NaN` and the infinities are not modelled.
* `navigator.getGamepads()` is the snapshot `List (Option Gamepad)`: one entry
  per slot, `none` for a slot that holds `null`.
* The two module-level variables `AXIS_DEADZONE` and `BUTTON_DEADZONE` are the
  explicit state `Config`, threaded through every reader.
* A block argument that selects a pad, a button or an axis is a `Sel`: the
  string `"any"` or an integer-valued number.
-/

namespace GamepadExtension

/-! ## Data model -/

/-- One entry of `gamepad.buttons`. -/
structure GamepadButton where
  pressed : Bool
  value : ℚ
deriving DecidableEq

/-- The fields of a host `Gamepad` object that the extension reads. -/
structure Gamepad where
  id : String
  mapping : String
  buttons : List GamepadButton
  axes : List ℚ
deriving DecidableEq

/-- The module-level mutable thresholds. -/
structure Config where
  AXIS_DEADZONE : ℚ
  BUTTON_DEADZONE : ℚ
deriving DecidableEq

/-- Initial values: `var AXIS_DEADZONE = 0.1; var BUTTON_DEADZONE = 0.05;`.
The literals are taken at their decimal value; the nearest doubles differ from
them by less than `10 ^ -17`. -/
def Config.initial : Config := ⟨1 / 10, 1 / 20⟩

/-- A selector argument: the string `"any"` or an integer-valued number
(a numeric string such as `"3"` is coerced by the arithmetic applied to it). -/
inductive Sel where
  | any : Sel
  | num : ℤ → Sel
deriving DecidableEq

/-- The number `sel - 1`; `"any" - 1` is `NaN`, which indexes nothing (`none`). -/
def Sel.minusOne : Sel → Option ℤ
  | .any => none
  | .num n => some (n - 1)

/-- The value `+sel + 1`; for `"any"` it is `NaN`, which behaves as `"any"` does
in `Sel.minusOne`: it indexes nothing. -/
def Sel.plusOne : Sel → Sel
  | .any => .any
  | .num n => .num (n + 1)

/-- JavaScript array read `xs[k]`: `undefined` (`none`) unless `k` is a
non-negative integer below the length. -/
def elemAt {α : Type} (xs : List α) : Option ℤ → Option α
  | none => none
  | some k => if k < 0 then none else xs.get? k.toNat

/-- The host facilities used by the numeric code. -/
structure JSMath where
  /-- The constant `Math.PI`. -/
  PI : ℚ
  /-- The function `Math.sqrt`. -/
  sqrt : ℚ → ℚ
  /-- The function `Math.atan2 (y, x)`. -/
  atan2 : ℚ → ℚ → ℚ
  /-- The operator `base ** exponent`. -/
  pow : ℚ → ℕ → ℚ
  /-- Rounding of an exact arithmetic result to a Number. -/
  rnd : ℚ → ℚ

/-! ## Helpers of the source -/

/-- Source `getGamepads`. -/
def getGamepads (pads : List (Option Gamepad)) : Sel → List Gamepad
  | .any => pads.filterMap id
  | .num n =>
    match elemAt pads (Sel.num n).minusOne with
    | some (some gamepad) => [gamepad]
    | _ => []

/-- Source `isButtonPressed`. -/
def isButtonPressed (gamepad : Gamepad) : Sel → Bool
  | .any => gamepad.buttons.any (fun i => i.pressed)
  | .num b =>
    match elemAt gamepad.buttons (Sel.num b).minusOne with
    | none => false
    | some button => button.pressed

/-- Source `getButtonValue`. -/
def getButtonValue (cfg : Config) (gamepad : Gamepad) (buttonIndex : Sel) : ℚ :=
  match elemAt gamepad.buttons buttonIndex.minusOne with
  | none => 0
  | some button =>
    let value := button.value
    if value < cfg.BUTTON_DEADZONE then 0 else value

/-- Source `getAxisValue`. -/
def getAxisValue (cfg : Config) (gamepad : Gamepad) (axisIndex : Sel) : ℚ :=
  match elemAt gamepad.axes axisIndex.minusOne with
  | none => 0
  | some axisValue =>
    if |axisValue| < cfg.AXIS_DEADZONE then 0 else axisValue

/-- The class `\w` of a regular expression without the unicode flag. -/
def isWordChar (c : Char) : Bool :=
  c.isAlphanum || c == '_'

/-- The class `\s`: white space and line terminators. -/
def isSpaceChar (c : Char) : Bool :=
  let n := c.toNat
  (9 ≤ n && n ≤ 13) || n == 32 || n == 160 || n == 5760 || (8192 ≤ n && n ≤ 8202) ||
    n == 8232 || n == 8233 || n == 8239 || n == 8287 || n == 12288 || n == 65279

/-- Match the literal `key` (given in lower case) at the start of `s`, ignoring
ASCII case; the rest of `s` on success. -/
def matchKey : List Char → List Char → Option (List Char)
  | [], s => some s
  | _ :: _, [] => none
  | k :: ks, c :: cs => if c.toLower == k then matchKey ks cs else none

/-- The pattern `key\s*(\w+)` tried at the start of `s`: the capture group. -/
def matchHere (key s : List Char) : Option String :=
  match matchKey key s with
  | none => none
  | some rest =>
    let word := (rest.dropWhile isSpaceChar).takeWhile isWordChar
    if word.isEmpty then none else some (String.mk word)

/-- Leftmost match of `key\s*(\w+)` in `s`. -/
def matchFirst (key : List Char) : List Char → Option String
  | [] => matchHere key []
  | c :: cs =>
    match matchHere key (c :: cs) with
    | some w => some w
    | none => matchFirst key cs

/-- Source `matchVendor`: `id.match(/vendor:\s*(\w+)/i)[1]`; `none` is the
`TypeError` raised when the pattern does not match. -/
def matchVendor (id : String) : Option String :=
  matchFirst "vendor:".toList id.toList

/-- Source `matchProduct`: `id.match(/product:\s*(\w+)/i)[1]`. -/
def matchProduct (id : String) : Option String :=
  matchFirst "product:".toList id.toList

/-! ## Blocks -/

/-- Source `gamepadConnected`. -/
def gamepadConnected (pads : List (Option Gamepad)) (pad : Sel) : Bool :=
  decide ((getGamepads pads pad).length > 0)

/-- Body of the `for` loop of `gamepadDetail`; `none` is a raised exception. -/
def gamepadDetailLoop (d : String) : List Gamepad → Option String
  | [] => some "not connected"
  | gamepad :: rest =>
    if d = "mapping" then some gamepad.mapping
    else if d = "vendor" then matchVendor gamepad.id
    else if d = "product" then matchProduct gamepad.id
    else if d = "id" then some gamepad.id
    else gamepadDetailLoop d rest

/-- Source `gamepadDetail`. -/
def gamepadDetail (pads : List (Option Gamepad)) (d : String) (i : Sel) : Option String :=
  gamepadDetailLoop d (getGamepads pads i)

/-- Body of the `for` loop of `buttonDown`. -/
def buttonDownLoop (b : Sel) : List Gamepad → Bool
  | [] => false
  | gamepad :: rest => if isButtonPressed gamepad b then true else buttonDownLoop b rest

/-- Source `buttonDown`. -/
def buttonDown (pads : List (Option Gamepad)) (b i : Sel) : Bool :=
  buttonDownLoop b (getGamepads pads i)

/-- Source `buttonValue`. -/
def buttonValue (cfg : Config) (pads : List (Option Gamepad)) (b i : Sel) : ℚ :=
  (getGamepads pads i).foldl
    (fun greatestButton gamepad =>
      let value := getButtonValue cfg gamepad b
      if value > greatestButton then value else greatestButton)
    0

/-- Source `axisValue`. -/
def axisValue (cfg : Config) (pads : List (Option Gamepad)) (b i : Sel) : ℚ :=
  (getGamepads pads i).foldl
    (fun greatestAxis gamepad =>
      let axis := getAxisValue cfg gamepad b
      if |axis| > |greatestAxis| then axis else greatestAxis)
    0

/-- The per-device value `Math.sqrt(horizontalAxis ** 2 + verticalAxis ** 2)`
computed in `axisDirection` and `axisMagnitude`. -/
def pairMagnitude (M : JSMath) (cfg : Config) (gamepad : Gamepad) (axis : Sel) : ℚ :=
  let horizontalAxis := getAxisValue cfg gamepad axis
  let verticalAxis := getAxisValue cfg gamepad axis.plusOne
  M.sqrt (M.rnd (M.pow horizontalAxis 2 + M.pow verticalAxis 2))

/-- The per-device value assigned to `direction` in `axisDirection`:
`(Math.atan2(verticalAxis, horizontalAxis) * 180) / Math.PI + 90`, with 360
added when that is below 0. -/
def pairDirection (M : JSMath) (cfg : Config) (gamepad : Gamepad) (axis : Sel) : ℚ :=
  let horizontalAxis := getAxisValue cfg gamepad axis
  let verticalAxis := getAxisValue cfg gamepad axis.plusOne
  let direction := M.rnd (M.rnd (M.rnd (M.atan2 verticalAxis horizontalAxis * 180) / M.PI) + 90)
  if direction < 0 then M.rnd (direction + 360) else direction

/-- Source `axisDirection`: the loop state is `(greatestMagnitude, direction)`. -/
def axisDirection (M : JSMath) (cfg : Config) (pads : List (Option Gamepad))
    (axis pad : Sel) : ℚ :=
  ((getGamepads pads pad).foldl
    (fun (st : ℚ × ℚ) gamepad =>
      let magnitude := pairMagnitude M cfg gamepad axis
      if magnitude > st.1 then (magnitude, pairDirection M cfg gamepad axis) else st)
    (0, 90)).2

/-- Source `axisMagnitude`. -/
def axisMagnitude (M : JSMath) (cfg : Config) (pads : List (Option Gamepad))
    (axis pad : Sel) : ℚ :=
  (getGamepads pads pad).foldl
    (fun greatestMagnitude gamepad =>
      let magnitude := pairMagnitude M cfg gamepad axis
      if magnitude > greatestMagnitude then magnitude else greatestMagnitude)
    0

/-- Source `deadzone`. -/
def deadzone (cfg : Config) (i : ℚ) : Config :=
  { cfg with AXIS_DEADZONE := i }

/-- Source `deadzoneButton`. -/
def deadzoneButton (cfg : Config) (i : ℚ) : Config :=
  { cfg with BUTTON_DEADZONE := i }

/-- Source `getdeadzone`. -/
def getdeadzone (cfg : Config) : ℚ :=
  cfg.AXIS_DEADZONE

/-- Source `getdeadzoneButton`. -/
def getdeadzoneButton (cfg : Config) : ℚ :=
  cfg.BUTTON_DEADZONE

/-! ## A reference host

IEEE-754 binary64 arithmetic, as every ECMAScript host implements Number:
results are rounded to the nearest double, ties to even.  Overflow to an
infinity is outside the model (no value computed here exceeds 360). -/

/-- Two to an integer power. -/
def pow2 (e : ℤ) : ℚ :=
  if 0 ≤ e then ((2 ^ e.toNat : ℕ) : ℚ) else 1 / ((2 ^ (-e).toNat : ℕ) : ℚ)

/-- Loop of `log2`, structural in the fuel. -/
def log2Loop : ℕ → ℕ → ℕ
  | 0, _ => 0
  | fuel + 1, n => if 2 ≤ n then log2Loop fuel (n / 2) + 1 else 0

/-- Position of the leading bit of a natural number. -/
def log2 (n : ℕ) : ℕ :=
  log2Loop n n

/-- Binary exponent of a positive rational: the `e` with `2 ^ e ≤ a < 2 ^ (e + 1)`. -/
def ilog2 (a : ℚ) : ℤ :=
  let e0 : ℤ := (log2 a.num.natAbs : ℤ) - (log2 a.den : ℤ)
  if pow2 e0 ≤ a then e0 else e0 - 1

/-- Nearest integer to a non-negative rational, ties to even. -/
def roundHalfEven (m : ℚ) : ℤ :=
  let f := m.floor
  let r := m - f
  if r < 1 / 2 then f
  else if 1 / 2 < r then f + 1
  else if f % 2 = 0 then f else f + 1

/-- Rounding to binary64: 53 significant bits, least exponent -1022. -/
def binary64 (q : ℚ) : ℚ :=
  if q = 0 then 0 else
    let a := |q|
    let e := max (ilog2 a) (-1022)
    let quantum := pow2 (e - 52)
    let r := (roundHalfEven (a / quantum) : ℚ) * quantum
    if q < 0 then -r else r

/-- Loop of `isqrt`: the bits of the root, from the highest down. -/
def isqrtLoop (n : ℕ) : ℕ → ℕ → ℕ
  | 0, acc => acc
  | b + 1, acc =>
    let c := acc + 2 ^ b
    isqrtLoop n b (if c * c ≤ n then c else acc)

/-- Integer square root. -/
def isqrt (n : ℕ) : ℕ :=
  isqrtLoop n (log2 n / 2 + 1) 0

/-- Correctly rounded square root, as IEEE-754 requires of `Math.sqrt`; the
root is located between two neighbours on a grid of at least 64 bits and then
rounded.  Non-positive arguments give 0 (the code only passes sums of squares). -/
def hostSqrt (x : ℚ) : ℚ :=
  if x ≤ 0 then 0 else
    let k : ℕ := 64 + (-(ilog2 x)).toNat
    let scaled := x * ((4 ^ k : ℕ) : ℚ)
    let n := scaled.floor.toNat
    let s := isqrt n
    if (n : ℚ) = scaled ∧ s * s = n then binary64 ((s : ℚ) / ((2 ^ k : ℕ) : ℚ))
    else binary64 (((2 * s + 1 : ℕ) : ℚ) / ((2 ^ (k + 1) : ℕ) : ℚ))

/-- The double `Math.PI`, `0x400921FB54442D18`. -/
def hostPI : ℚ :=
  884279719003555 / 281474976710656

/-- The number π to 35 decimal places. -/
def piHi : ℚ :=
  3.14159265358979323846264338327950288

/-- Partial sums of the arctangent series `u - u^3/3 + u^5/5 - ...`. -/
def atanSeries (u : ℚ) : ℕ → ℚ
  | 0 => 0
  | k + 1 => atanSeries u k + (-1) ^ k * u ^ (2 * k + 1) / ((2 * k + 1 : ℕ) : ℚ)

/-- Arctangent on `[0, 1]`: the argument is moved next to one of the tabulated
points 0, 1/4, 1/2, 3/4, 1, where fourteen terms of the series leave an error
below `2 ^ -80`. -/
def atanUnit (t : ℚ) : ℚ :=
  if t ≤ 1 / 8 then atanSeries t 14
  else if t ≤ 3 / 8 then
    0.244978663126864154172082481211275811 + atanSeries ((t - 1 / 4) / (1 + t / 4)) 14
  else if t ≤ 5 / 8 then
    0.463647609000806116214256231461214402 + atanSeries ((t - 1 / 2) / (1 + t / 2)) 14
  else if t ≤ 7 / 8 then
    0.643501108793284386802809228717322638 + atanSeries ((t - 3 / 4) / (1 + 3 * t / 4)) 14
  else piHi / 4 + atanSeries ((t - 1) / (1 + t)) 14

/-- Arctangent of a non-negative rational. -/
def atanPos (t : ℚ) : ℚ :=
  if t ≤ 1 then atanUnit t else piHi / 2 - atanUnit (1 / t)

/-- The function `Math.atan2 (y, x)`: the angle of the point `(x, y)` in
`[-π, π]`, rounded to a double; 0 at the origin. -/
def hostAtan2 (y x : ℚ) : ℚ :=
  let a :=
    if x = 0 then (if y = 0 then 0 else piHi / 2)
    else if 0 < x then atanPos (|y| / x)
    else piHi - atanPos (|y| / -x)
  binary64 (if y < 0 then -a else a)

/-- The reference host: binary64 rounding after every operation. -/
def hostMath : JSMath where
  PI := hostPI
  sqrt := hostSqrt
  atan2 := hostAtan2
  pow := fun x n => binary64 (x ^ n)
  rnd := binary64

/-! ## Sample devices -/

/-- A device with the given axes and no buttons. -/
def padWithAxes (axes : List ℚ) : Gamepad :=
  ⟨"Controller (Vendor: 045e Product: 028e)", "standard", [], axes⟩

/-- A device with the given buttons and no axes. -/
def padWithButtons (buttons : List GamepadButton) : Gamepad :=
  ⟨"Controller (Vendor: 045e Product: 028e)", "standard", buttons, []⟩

end GamepadExtension

namespace GamepadExtension

/-! ## Device selection -/

theorem getGamepads_num_of_empty (pads : List (Option Gamepad)) (n : ℤ)
    (h : ∀ g, elemAt pads (some (n - 1)) ≠ some (some g)) :
    getGamepads pads (.num n) = [] := by
  cases hq : elemAt pads (some (n - 1)) with
  | none => simp [getGamepads, Sel.minusOne, hq]
  | some o =>
    cases o with
    | none => simp [getGamepads, Sel.minusOne, hq]
    | some g => exact absurd hq (h g)

/-- Claim C1: a numeric pad selector that names a slot with no device makes
every query return its default: `gamepadConnected` false, `gamepadDetail`
"not connected" for every field, `buttonDown` false for every button selector,
`buttonValue`, `axisValue` and `axisMagnitude` 0 for every index. -/
theorem missing_slot_defaults (M : JSMath) (cfg : Config) (pads : List (Option Gamepad))
    (n : ℤ) (h : ∀ g, elemAt pads (some (n - 1)) ≠ some (some g)) :
    gamepadConnected pads (.num n) = false ∧
    (∀ d : String, gamepadDetail pads d (.num n) = some "not connected") ∧
    (∀ b : Sel, buttonDown pads b (.num n) = false) ∧
    (∀ b : Sel, buttonValue cfg pads b (.num n) = 0) ∧
    (∀ b : Sel, axisValue cfg pads b (.num n) = 0) ∧
    (∀ axis : Sel, axisMagnitude M cfg pads axis (.num n) = 0) := by
  have hg := getGamepads_num_of_empty pads n h
  refine ⟨?_, ?_, ?_, ?_, ?_, ?_⟩
  · simp [gamepadConnected, hg]
  · intro d
    simp [gamepadDetail, hg, gamepadDetailLoop]
  · intro b
    simp [buttonDown, hg, buttonDownLoop]
  · intro b
    simp [buttonValue, hg]
  · intro b
    simp [axisValue, hg]
  · intro axis
    simp [axisMagnitude, hg]

/-- Slot 3 queried while only slot 1 holds a device. -/
theorem missing_slot_defaults_witness :
    (∀ g, elemAt [some (padWithAxes [1, 0])] (some ((3 : ℤ) - 1)) ≠ some (some g)) ∧
    gamepadConnected [some (padWithAxes [1, 0])] (.num 3) = false ∧
    (∀ d : String, gamepadDetail [some (padWithAxes [1, 0])] d (.num 3)
      = some "not connected") ∧
    (∀ b : Sel, buttonDown [some (padWithAxes [1, 0])] b (.num 3) = false) ∧
    (∀ b : Sel, buttonValue Config.initial [some (padWithAxes [1, 0])] b (.num 3) = 0) ∧
    (∀ b : Sel, axisValue Config.initial [some (padWithAxes [1, 0])] b (.num 3) = 0) ∧
    (∀ axis : Sel,
      axisMagnitude hostMath Config.initial [some (padWithAxes [1, 0])] axis (.num 3) = 0) :=
  have h : ∀ g, elemAt [some (padWithAxes [1, 0])] (some ((3 : ℤ) - 1)) ≠ some (some g) := by
    intro g
    simp [elemAt]
  ⟨h, missing_slot_defaults hostMath Config.initial [some (padWithAxes [1, 0])] 3 h⟩

/-! ## Buttons -/

theorem buttonDownLoop_eq_true (b : Sel) (l : List Gamepad) :
    buttonDownLoop b l = true ↔ ∃ g ∈ l, isButtonPressed g b = true := by
  induction l with
  | nil => simp [buttonDownLoop]
  | cons g rest ih =>
    simp only [buttonDownLoop, List.mem_cons, exists_eq_or_imp]
    by_cases hg : isButtonPressed g b = true
    · simp [hg]
    · simp [hg, ih]

/-- Claim C10: `buttonDown` is the logical OR over the matched devices:
with `"any"` it holds iff some matched device has a pressed button, with a
1-based index `k` iff some matched device has a `k`-th button that is pressed. -/
theorem buttonDown_iff (pads : List (Option Gamepad)) (pad : Sel) :
    (buttonDown pads .any pad = true ↔
      ∃ g ∈ getGamepads pads pad, ∃ btn ∈ g.buttons, btn.pressed = true) ∧
    (∀ k : ℤ, buttonDown pads (.num k) pad = true ↔
      ∃ g ∈ getGamepads pads pad, ∃ btn,
        elemAt g.buttons (some (k - 1)) = some btn ∧ btn.pressed = true) := by
  constructor
  · simp [buttonDown, buttonDownLoop_eq_true, isButtonPressed]
  · intro k
    simp only [buttonDown, buttonDownLoop_eq_true, isButtonPressed, Sel.minusOne]
    constructor
    · rintro ⟨g, hg, hp⟩
      refine ⟨g, hg, ?_⟩
      cases hb : elemAt g.buttons (some (k - 1)) with
      | none => simp [hb] at hp
      | some btn => exact ⟨btn, rfl, by simpa [hb] using hp⟩
    · rintro ⟨g, hg, btn, hb, hp⟩
      exact ⟨g, hg, by simp [hb, hp]⟩

theorem buttonValue_of_single (cfg : Config) (pads : List (Option Gamepad)) (b i : Sel)
    (g : Gamepad) (hs : getGamepads pads i = [g]) :
    buttonValue cfg pads b i
      = if getButtonValue cfg g b > 0 then getButtonValue cfg g b else 0 := by
  simp [buttonValue, hs]

/-- Claim C3, as the code has it: for a single matched device and every
threshold `d`, `buttonValue` is 0 whenever the raw button value is strictly
below `d`, a non-negative raw value equal to or above `d` is returned
unchanged, and `buttonValue` is non-decreasing in the raw value above `d`. -/
theorem buttonValue_single_device (cfg : Config) (pads1 pads2 : List (Option Gamepad))
    (i1 i2 : Sel) (g1 g2 : Gamepad) (k : ℤ) (btn1 btn2 : GamepadButton)
    (hs1 : getGamepads pads1 i1 = [g1]) (hs2 : getGamepads pads2 i2 = [g2])
    (hb1 : elemAt g1.buttons (some (k - 1)) = some btn1)
    (hb2 : elemAt g2.buttons (some (k - 1)) = some btn2) :
    (btn1.value < cfg.BUTTON_DEADZONE → buttonValue cfg pads1 (.num k) i1 = 0) ∧
    (cfg.BUTTON_DEADZONE ≤ btn1.value → 0 ≤ btn1.value →
      buttonValue cfg pads1 (.num k) i1 = btn1.value) ∧
    (cfg.BUTTON_DEADZONE < btn1.value → btn1.value ≤ btn2.value →
      buttonValue cfg pads1 (.num k) i1 ≤ buttonValue cfg pads2 (.num k) i2) := by
  rw [buttonValue_of_single cfg pads1 _ i1 g1 hs1, buttonValue_of_single cfg pads2 _ i2 g2 hs2]
  simp only [getButtonValue, Sel.minusOne, hb1, hb2]
  refine ⟨?_, ?_, ?_⟩
  · intro h
    simp [h]
  · intro h h0
    rw [if_neg (not_lt.mpr h)]
    split_ifs with h1
    · rfl
    · linarith
  · intro h h12
    rw [if_neg (not_lt.mpr h.le), if_neg (not_lt.mpr (h.le.trans h12))]
    split_ifs <;> linarith

/-- Threshold 1/2: a raw value 1/4 reads 0, the raw value 1/2 reads 1/2, and
3/4 then 1 read 3/4 then 1. -/
theorem buttonValue_single_device_witness :
    buttonValue (deadzoneButton Config.initial (1 / 2))
        [some (padWithButtons [⟨false, 1 / 4⟩])] (.num 1) (.num 1) = 0 ∧
    buttonValue (deadzoneButton Config.initial (1 / 2))
        [some (padWithButtons [⟨true, 1 / 2⟩])] (.num 1) (.num 1) = 1 / 2 ∧
    buttonValue (deadzoneButton Config.initial (1 / 2))
        [some (padWithButtons [⟨true, 3 / 4⟩])] (.num 1) (.num 1)
      ≤ buttonValue (deadzoneButton Config.initial (1 / 2))
        [some (padWithButtons [⟨true, 1⟩])] (.num 1) (.num 1) :=
  ⟨(buttonValue_single_device (deadzoneButton Config.initial (1 / 2))
      [some (padWithButtons [⟨false, 1 / 4⟩])] [some (padWithButtons [⟨false, 1 / 4⟩])]
      (.num 1) (.num 1) _ _ 1 ⟨false, 1 / 4⟩ ⟨false, 1 / 4⟩ rfl rfl rfl rfl).1 (by decide!),
   (buttonValue_single_device (deadzoneButton Config.initial (1 / 2))
      [some (padWithButtons [⟨true, 1 / 2⟩])] [some (padWithButtons [⟨true, 1 / 2⟩])]
      (.num 1) (.num 1) _ _ 1 ⟨true, 1 / 2⟩ ⟨true, 1 / 2⟩ rfl rfl rfl rfl).2.1
      (by decide!) (by decide!),
   (buttonValue_single_device (deadzoneButton Config.initial (1 / 2))
      [some (padWithButtons [⟨true, 3 / 4⟩])] [some (padWithButtons [⟨true, 1⟩])]
      (.num 1) (.num 1) _ _ 1 ⟨true, 3 / 4⟩ ⟨true, 1⟩ rfl rfl rfl rfl).2.2
      (by decide!) (by decide!)⟩

/-- Claim C3 as stated fails: with threshold 1/2 a raw button value exactly
equal to the threshold is returned, not clamped to 0. -/
theorem buttonValue_at_threshold_not_zero :
    getdeadzoneButton (deadzoneButton Config.initial (1 / 2)) = 1 / 2 ∧
    buttonValue (deadzoneButton Config.initial (1 / 2))
        [some (padWithButtons [⟨true, 1 / 2⟩])] (.num 1) (.num 1) = 1 / 2 ∧
    buttonValue (deadzoneButton Config.initial (1 / 2))
        [some (padWithButtons [⟨true, 1 / 2⟩])] (.num 1) (.num 1) ≠ 0 := by
  decide!

/-! ## Axes -/

theorem getAxisValue_zero_or_ge (cfg : Config) (g : Gamepad) (b : Sel) :
    getAxisValue cfg g b = 0 ∨ cfg.AXIS_DEADZONE ≤ |getAxisValue cfg g b| := by
  unfold getAxisValue
  split
  · exact Or.inl rfl
  · next v _ =>
    by_cases h : |v| < cfg.AXIS_DEADZONE
    · exact Or.inl (by simp [h])
    · exact Or.inr (by rw [if_neg h]; exact not_lt.mp h)

theorem getAxisValue_of_below (cfg : Config) (g : Gamepad) (b : Sel)
    (h : ∀ v, elemAt g.axes b.minusOne = some v → |v| < cfg.AXIS_DEADZONE) :
    getAxisValue cfg g b = 0 := by
  unfold getAxisValue
  split
  · rfl
  · next v hv => simp [h v hv]

/-- The reduction of `axisValue`, started from `acc`: either no reading exceeds
`acc` in magnitude and `acc` is kept, or the result is the reading of the
first device whose magnitude is the greatest. -/
theorem axis_foldl_first_greatest (val : Gamepad → ℚ) (l : List Gamepad) (acc : ℚ) :
    (l.foldl (fun a g => if |val g| > |a| then val g else a) acc = acc ∧
        ∀ g ∈ l, |val g| ≤ |acc|) ∨
    ∃ l1 g l2, l = l1 ++ g :: l2 ∧
      l.foldl (fun a g => if |val g| > |a| then val g else a) acc = val g ∧
      |acc| < |val g| ∧ (∀ g' ∈ l1, |val g'| < |val g|) ∧ (∀ g' ∈ l2, |val g'| ≤ |val g|) := by
  induction l generalizing acc with
  | nil => exact Or.inl ⟨rfl, by simp⟩
  | cons g t ih =>
    simp only [List.foldl_cons]
    by_cases hg : |val g| > |acc|
    · rw [if_pos hg]
      rcases ih (val g) with ⟨hr, hall⟩ | ⟨l1, g2, l2, hl, hr, hlt, h1, h2⟩
      · exact Or.inr ⟨[], g, t, rfl, hr, hg, by simp, hall⟩
      · refine Or.inr ⟨g :: l1, g2, l2, by simp [hl], hr, lt_trans hg hlt, ?_, h2⟩
        intro g' hg'
        rcases List.mem_cons.mp hg' with rfl | hm
        · exact hlt
        · exact h1 g' hm
    · rw [if_neg hg]
      have hle : |val g| ≤ |acc| := not_lt.mp hg
      rcases ih acc with ⟨hr, hall⟩ | ⟨l1, g2, l2, hl, hr, hlt, h1, h2⟩
      · refine Or.inl ⟨hr, ?_⟩
        intro g' hg'
        rcases List.mem_cons.mp hg' with rfl | hm
        · exact hle
        · exact hall g' hm
      · refine Or.inr ⟨g :: l1, g2, l2, by simp [hl], hr, hlt, ?_, h2⟩
        intro g' hg'
        rcases List.mem_cons.mp hg' with rfl | hm
        · exact lt_of_le_of_lt hle hlt
        · exact h1 g' hm

theorem axisValue_cases (cfg : Config) (pads : List (Option Gamepad)) (b i : Sel) :
    (axisValue cfg pads b i = 0 ∧ ∀ g ∈ getGamepads pads i, getAxisValue cfg g b = 0) ∨
    ∃ l1 g l2, getGamepads pads i = l1 ++ g :: l2 ∧
      axisValue cfg pads b i = getAxisValue cfg g b ∧
      getAxisValue cfg g b ≠ 0 ∧
      (∀ g' ∈ l1, |getAxisValue cfg g' b| < |getAxisValue cfg g b|) ∧
      (∀ g' ∈ l2, |getAxisValue cfg g' b| ≤ |getAxisValue cfg g b|) := by
  rcases axis_foldl_first_greatest (fun g => getAxisValue cfg g b) (getGamepads pads i) 0 with
    ⟨hr, hall⟩ | ⟨l1, g, l2, hl, hr, hlt, h1, h2⟩
  · refine Or.inl ⟨hr, ?_⟩
    intro g hg
    have := hall g hg
    simpa using this
  · refine Or.inr ⟨l1, g, l2, hl, hr, ?_, h1, h2⟩
    intro h0
    simp [h0] at hlt

/-- Claim C2: `axisValue` never returns a nonzero value whose magnitude is
below `axisDeadzone`, and returns 0 when the raw axis of every matched device
is below it in magnitude; after `deadzone 0.5` a single device with raw axis
0.3 reads 0 and with raw axis 0.6 reads 0.6. -/
theorem axisValue_respects_deadzone (cfg : Config) (pads : List (Option Gamepad))
    (b i : Sel) :
    ¬ (axisValue cfg pads b i ≠ 0 ∧ |axisValue cfg pads b i| < cfg.AXIS_DEADZONE) ∧
    ((∀ g ∈ getGamepads pads i, ∀ v, elemAt g.axes b.minusOne = some v →
        |v| < cfg.AXIS_DEADZONE) → axisValue cfg pads b i = 0) ∧
    getdeadzone (deadzone Config.initial (1 / 2)) = 1 / 2 ∧
    axisValue (deadzone Config.initial (1 / 2)) [some (padWithAxes [3 / 10])]
      (.num 1) (.num 1) = 0 ∧
    axisValue (deadzone Config.initial (1 / 2)) [some (padWithAxes [6 / 10])]
      (.num 1) (.num 1) = 6 / 10 := by
  refine ⟨?_, ?_, by decide!, by decide!, by decide!⟩
  · rintro ⟨hne, hlt⟩
    rcases axisValue_cases cfg pads b i with ⟨hr, _⟩ | ⟨l1, g, l2, _, hr, hg, _, _⟩
    · exact hne hr
    · rcases getAxisValue_zero_or_ge cfg g b with h0 | hge
      · exact hg h0
      · rw [hr] at hlt
        exact absurd hlt (not_lt.mpr hge)
  · intro hall
    rcases axisValue_cases cfg pads b i with ⟨hr, _⟩ | ⟨l1, g, l2, hl, _, hg, _, _⟩
    · exact hr
    · exact absurd (getAxisValue_of_below cfg g b (hall g (by simp [hl]))) hg

/-- Claim C4: `axisValue` is 0 if every matched device has a zero filtered
reading, and otherwise is the signed filtered reading of the first matched
device, in enumeration order, whose magnitude is the greatest: every earlier
device is strictly smaller in magnitude and no later one is greater.  On a tie
(+0.5 then -0.5, or -0.5 then +0.5) the earlier value is kept. -/
theorem axisValue_first_greatest_magnitude (cfg : Config) (pads : List (Option Gamepad))
    (b i : Sel) :
    ((∀ g ∈ getGamepads pads i, getAxisValue cfg g b = 0) → axisValue cfg pads b i = 0) ∧
    ((∃ g ∈ getGamepads pads i, getAxisValue cfg g b ≠ 0) →
      ∃ l1 g l2, getGamepads pads i = l1 ++ g :: l2 ∧
        axisValue cfg pads b i = getAxisValue cfg g b ∧
        (∀ g' ∈ l1, |getAxisValue cfg g' b| < |getAxisValue cfg g b|) ∧
        (∀ g' ∈ l2, |getAxisValue cfg g' b| ≤ |getAxisValue cfg g b|)) ∧
    (∀ g ∈ getGamepads pads i, |getAxisValue cfg g b| ≤ |axisValue cfg pads b i|) ∧
    axisValue Config.initial [some (padWithAxes [1 / 2]), some (padWithAxes [-(1 / 2)])]
      (.num 1) .any = 1 / 2 ∧
    axisValue Config.initial [some (padWithAxes [-(1 / 2)]), some (padWithAxes [1 / 2])]
      (.num 1) .any = -(1 / 2) := by
  refine ⟨?_, ?_, ?_, by decide!, by decide!⟩
  · intro hall
    rcases axisValue_cases cfg pads b i with ⟨hr, _⟩ | ⟨l1, g, l2, hl, _, hg, _, _⟩
    · exact hr
    · exact absurd (hall g (by simp [hl])) hg
  · rintro ⟨g0, hg0, hne⟩
    rcases axisValue_cases cfg pads b i with ⟨_, hall⟩ | ⟨l1, g, l2, hl, hr, _, h1, h2⟩
    · exact absurd (hall g0 hg0) hne
    · exact ⟨l1, g, l2, hl, hr, h1, h2⟩
  · intro g0 hg0
    rcases axisValue_cases cfg pads b i with ⟨_, hall⟩ | ⟨l1, g, l2, hl, hr, _, h1, h2⟩
    · simp [hall g0 hg0]
    · rw [hr]
      rw [hl] at hg0
      rcases List.mem_append.mp hg0 with hm | hm
      · exact (h1 g0 hm).le
      · rcases List.mem_cons.mp hm with rfl | hm2
        · exact le_refl _
        · exact h2 g0 hm2

/-! ## Thresholds outside `[0, 1]` -/

theorem elemAt_mem {α : Type} (xs : List α) (k : Option ℤ) (a : α)
    (h : elemAt xs k = some a) : a ∈ xs := by
  cases k with
  | none => simp [elemAt] at h
  | some n =>
    simp only [elemAt] at h
    split_ifs at h
    exact List.get?_mem h

theorem buttonValue_eq_zero_of_forall (cfg : Config) (pads : List (Option Gamepad))
    (b i : Sel) (h : ∀ g ∈ getGamepads pads i, getButtonValue cfg g b = 0) :
    buttonValue cfg pads b i = 0 := by
  unfold buttonValue
  generalize getGamepads pads i = l at h
  induction l with
  | nil => rfl
  | cons g t ih =>
    have hg : getButtonValue cfg g b = 0 := h g (by simp)
    simp only [List.foldl_cons, hg, gt_iff_lt, lt_self_iff_false, if_false]
    exact ih (fun g' hg' => h g' (List.mem_cons_of_mem _ hg'))

/-- Claim C8, as the code has it: after a threshold setter is called with a
value greater than 1, every reading filtered by that threshold is zero
(`axisValue` for axes in `[-1, 1]`, `buttonValue` for button values in
`[0, 1]`); after a negative value nothing is filtered: every axis reading and
every non-negative button reading of a device is its raw value. -/
theorem threshold_out_of_domain (cfg : Config) (pads : List (Option Gamepad))
    (b i : Sel) (d : ℚ) :
    (1 < d → (∀ g ∈ getGamepads pads i, ∀ v ∈ g.axes, |v| ≤ 1) →
      axisValue (deadzone cfg d) pads b i = 0) ∧
    (1 < d → (∀ g ∈ getGamepads pads i, ∀ btn ∈ g.buttons, 0 ≤ btn.value ∧ btn.value ≤ 1) →
      buttonValue (deadzoneButton cfg d) pads b i = 0) ∧
    (d < 0 → ∀ g v, elemAt g.axes b.minusOne = some v →
      getAxisValue (deadzone cfg d) g b = v) ∧
    (d < 0 → ∀ g btn, elemAt g.buttons b.minusOne = some btn → 0 ≤ btn.value →
      getButtonValue (deadzoneButton cfg d) g b = btn.value) := by
  refine ⟨?_, ?_, ?_, ?_⟩
  · intro hd hall
    rcases axisValue_cases (deadzone cfg d) pads b i with ⟨hr, _⟩ | ⟨l1, g, l2, hl, _, hg, _, _⟩
    · exact hr
    · refine absurd (getAxisValue_of_below (deadzone cfg d) g b ?_) hg
      intro v hv
      have hv1 : |v| ≤ 1 := hall g (by simp [hl]) v (elemAt_mem _ _ _ hv)
      simp only [deadzone]
      linarith
  · intro hd hall
    apply buttonValue_eq_zero_of_forall
    intro g hg
    unfold getButtonValue
    split
    · rfl
    · next btn hb =>
      have hb1 := (hall g hg btn (elemAt_mem _ _ _ hb)).2
      have : btn.value < (deadzoneButton cfg d).BUTTON_DEADZONE := by
        simp only [deadzoneButton]
        linarith
      simp [this]
  · intro hd g v hv
    have : ¬ |v| < (deadzone cfg d).AXIS_DEADZONE := by
      simp only [deadzone, not_lt]
      exact le_trans hd.le (abs_nonneg v)
    simp [getAxisValue, hv, this]
  · intro hd g btn hb h0
    have : ¬ btn.value < (deadzoneButton cfg d).BUTTON_DEADZONE := by
      simp only [deadzoneButton, not_lt]
      linarith
    simp [getButtonValue, hb, this]

/-- Threshold 2 silences a fully deflected axis and a fully pressed button;
threshold -1 lets the readings 1/100 through. -/
theorem threshold_out_of_domain_witness :
    axisValue (deadzone Config.initial 2) [some (padWithAxes [1, -1])] (.num 1) .any = 0 ∧
    buttonValue (deadzoneButton Config.initial 2) [some (padWithButtons [⟨true, 1⟩])]
      (.num 1) .any = 0 ∧
    getAxisValue (deadzone Config.initial (-1)) (padWithAxes [1 / 100]) (.num 1) = 1 / 100 ∧
    getButtonValue (deadzoneButton Config.initial (-1)) (padWithButtons [⟨false, 1 / 100⟩])
      (.num 1) = 1 / 100 :=
  ⟨(threshold_out_of_domain Config.initial [some (padWithAxes [1, -1])] (.num 1) .any 2).1
      (by decide!) (by decide!),
   (threshold_out_of_domain Config.initial [some (padWithButtons [⟨true, 1⟩])]
      (.num 1) .any 2).2.1 (by decide!) (by decide!),
   (threshold_out_of_domain Config.initial [] (.num 1) .any (-1)).2.2.1 (by decide!)
      (padWithAxes [1 / 100]) (1 / 100) rfl,
   (threshold_out_of_domain Config.initial [] (.num 1) .any (-1)).2.2.2 (by decide!)
      (padWithButtons [⟨false, 1 / 100⟩]) ⟨false, 1 / 100⟩ rfl (by decide!)⟩

/-- Claim C8 as stated fails for a negative threshold: after `deadzone (-1)`
an axis at 1/2 reads 1/2, and after `deadzoneButton (-1)` a button at 1/2
reads 1/2. -/
theorem negative_threshold_reads_nonzero :
    getdeadzone (deadzone Config.initial (-1)) = -1 ∧
    axisValue (deadzone Config.initial (-1)) [some (padWithAxes [1 / 2])]
      (.num 1) (.num 1) = 1 / 2 ∧
    axisValue (deadzone Config.initial (-1)) [some (padWithAxes [1 / 2])]
      (.num 1) (.num 1) ≠ 0 ∧
    buttonValue (deadzoneButton Config.initial (-1)) [some (padWithButtons [⟨true, 1 / 2⟩])]
      (.num 1) (.num 1) ≠ 0 := by
  decide!

/-! ## The reference host returns non-negative square roots -/

/-- The loop of `axisDirection` leaves its state alone while no device has a
magnitude above the running greatest. -/
theorem direction_foldl_unchanged (M : JSMath) (cfg : Config) (axis : Sel)
    (l : List Gamepad) (st : ℚ × ℚ) (h : ∀ g ∈ l, ¬ pairMagnitude M cfg g axis > st.1) :
    l.foldl
      (fun (st : ℚ × ℚ) gamepad =>
        if pairMagnitude M cfg gamepad axis > st.1 then
          (pairMagnitude M cfg gamepad axis, pairDirection M cfg gamepad axis)
        else st)
      st = st := by
  induction l with
  | nil => rfl
  | cons g t ih =>
    simp only [List.foldl_cons]
    rw [if_neg (h g (by simp))]
    exact ih (fun g' hg' => h g' (List.mem_cons_of_mem _ hg'))

/-- Claim C5: if no matched device has a nonzero filtered pair magnitude
(in particular if no device is matched), `axisDirection` returns exactly 90. -/
theorem axisDirection_default (M : JSMath) (cfg : Config) (pads : List (Option Gamepad))
    (axis pad : Sel) (h : ∀ g ∈ getGamepads pads pad, pairMagnitude M cfg g axis = 0) :
    axisDirection M cfg pads axis pad = 90 ∧ axisDirection M cfg pads axis pad ≠ 0 := by
  have h90 : axisDirection M cfg pads axis pad = 90 := by
    have hfold := direction_foldl_unchanged M cfg axis (getGamepads pads pad) (0, 90)
      (fun g hg => by simp [h g hg])
    unfold axisDirection
    exact congrArg Prod.snd hfold
  exact ⟨h90, by rw [h90]; norm_num⟩

/-- Two devices at rest inside the default deadzone (raw axes 1/20 and -1/20,
and 0 and 0), selector `"any"`: the direction read is 90. -/
theorem axisDirection_default_witness :
    (∀ g ∈ getGamepads [some (padWithAxes [1 / 20, -(1 / 20)]), none, some (padWithAxes [0, 0])]
        .any, pairMagnitude hostMath Config.initial g (.num 1) = 0) ∧
    axisDirection hostMath Config.initial
      [some (padWithAxes [1 / 20, -(1 / 20)]), none, some (padWithAxes [0, 0])] (.num 1) .any
      = 90 :=
  have h : ∀ g ∈ getGamepads
      [some (padWithAxes [1 / 20, -(1 / 20)]), none, some (padWithAxes [0, 0])] .any,
      pairMagnitude hostMath Config.initial g (.num 1) = 0 := by decide!
  ⟨h, (axisDirection_default hostMath Config.initial
    [some (padWithAxes [1 / 20, -(1 / 20)]), none, some (padWithAxes [0, 0])] (.num 1) .any h).1⟩

/-- Claim C7, as the code has it: with the initial thresholds and a device in
slot 1 whose axis 1 is 1 and axis 2 is 0, `axisDirection` with axis 1 and pad 1
is 90, on every host where `1 ** 2` is 1, `0 ** 2` is 0, the square root of 1
is positive, `Math.atan2(0, 1)` is 0 and the numbers 0, 1 and 90 are
representable. -/
theorem axisDirection_right_is_90 (M : JSMath) (hpow1 : M.pow 1 2 = 1) (hpow0 : M.pow 0 2 = 0)
    (hsqrt : 0 < M.sqrt 1) (hatan : M.atan2 0 1 = 0) (hrnd0 : M.rnd 0 = 0)
    (hrnd1 : M.rnd 1 = 1) (hrnd90 : M.rnd 90 = 90) (g : Gamepad)
    (others : List (Option Gamepad)) (rest : List ℚ) (haxes : g.axes = 1 :: 0 :: rest) :
    axisDirection M Config.initial (some g :: others) (.num 1) (.num 1) = 90 := by
  have hh : getAxisValue Config.initial g (.num 1) = 1 := by
    simp [getAxisValue, Sel.minusOne, elemAt, haxes, Config.initial]
    norm_num
  have hv : getAxisValue Config.initial g (Sel.num 1).plusOne = 0 := by
    simp [getAxisValue, Sel.minusOne, Sel.plusOne, elemAt, haxes, Config.initial]
  have hmag : pairMagnitude M Config.initial g (.num 1) = M.sqrt 1 := by
    simp [pairMagnitude, hh, hv, hpow1, hpow0, hrnd1]
  have hdir : pairDirection M Config.initial g (.num 1) = 90 := by
    simp [pairDirection, hh, hv, hatan, hrnd0, hrnd90]
  simp [axisDirection, getGamepads, Sel.minusOne, elemAt, hmag, hdir, hsqrt]

/-- The reference host, one device in slot 1 with axes (1, 0). -/
theorem axisDirection_right_is_90_witness :
    axisDirection hostMath Config.initial [some (padWithAxes [1, 0])] (.num 1) (.num 1) = 90 :=
  axisDirection_right_is_90 hostMath (by decide!) (by decide!) (by decide!) (by decide!)
    (by decide!) (by decide!) (by decide!) (padWithAxes [1, 0]) [] [] rfl

/-- Claim C7 as stated fails: on the reference host, horizontal 1 and vertical
0 on the single device of slot 1 give a direction that is not 180; the
direction 180 belongs to horizontal 0 and vertical 1. -/
theorem axisDirection_right_is_not_180 :
    axisDirection hostMath Config.initial [some (padWithAxes [1, 0])] (.num 1) (.num 1) ≠ 180 ∧
    axisDirection hostMath Config.initial [some (padWithAxes [0, 1])] (.num 1) (.num 1) = 180 := by
  decide!

/-- Claim C6 fails in binary64 arithmetic: with the axis deadzone set to 0 and
a stick at (-2^-52, -1), `axisDirection` returns exactly 360.  `Math.atan2`
is there one unit in the last place beyond -π/2 when correctly rounded (two
units in the fdlibm implementation); for either value the direction before
normalisation is -2^-46, which is negative, and adding 360 rounds to 360. -/
theorem axisDirection_reaches_360 :
    axisDirection hostMath (deadzone Config.initial 0)
      [some (padWithAxes [-(1 / 2 ^ 52), -1])] (.num 1) (.num 1) = 360 ∧
    ¬ axisDirection hostMath (deadzone Config.initial 0)
      [some (padWithAxes [-(1 / 2 ^ 52), -1])] (.num 1) (.num 1) < 360 ∧
    hostMath.atan2 (-1) (-(1 / 2 ^ 52)) = -(7074237752028441 / 2 ^ 52) ∧
    (∀ a ∈ [-(7074237752028441 / 2 ^ 52 : ℚ), -(7074237752028442 / 2 ^ 52)],
      hostMath.rnd (hostMath.rnd (hostMath.rnd (a * 180) / hostMath.PI) + 90) = -(1 / 2 ^ 46) ∧
      hostMath.rnd (-(1 / 2 ^ 46) + 360) = 360) := by
  decide!

/-- With exact arithmetic (a host that never rounds) and `Math.atan2` in
`[-π, π]`, every per-device direction lies in `[0, 360)`. -/
theorem pairDirection_range_of_exact (M : JSMath) (hrnd : ∀ q, M.rnd q = q) (hPI : 0 < M.PI)
    (hatan : ∀ y x, -M.PI ≤ M.atan2 y x ∧ M.atan2 y x ≤ M.PI) (cfg : Config) (g : Gamepad)
    (axis : Sel) :
    0 ≤ pairDirection M cfg g axis ∧ pairDirection M cfg g axis < 360 := by
  unfold pairDirection
  simp only [hrnd]
  obtain ⟨hlo, hhi⟩ :=
    hatan (getAxisValue cfg g axis.plusOne) (getAxisValue cfg g axis)
  generalize M.atan2 (getAxisValue cfg g axis.plusOne) (getAxisValue cfg g axis) = a at hlo hhi
  have h1 : -180 ≤ a * 180 / M.PI := by
    rw [le_div_iff₀ hPI]
    linarith
  have h2 : a * 180 / M.PI ≤ 180 := by
    rw [div_le_iff₀ hPI]
    linarith
  split_ifs with hneg
  · constructor <;> linarith
  · constructor <;> linarith

/-- With exact arithmetic and `Math.atan2` in `[-π, π]`, the value returned by
`axisDirection` lies in `[0, 360)`: only rounding can take it to 360. -/
theorem axisDirection_range_of_exact (M : JSMath) (hrnd : ∀ q, M.rnd q = q) (hPI : 0 < M.PI)
    (hatan : ∀ y x, -M.PI ≤ M.atan2 y x ∧ M.atan2 y x ≤ M.PI) (cfg : Config)
    (pads : List (Option Gamepad)) (axis pad : Sel) :
    0 ≤ axisDirection M cfg pads axis pad ∧ axisDirection M cfg pads axis pad < 360 := by
  unfold axisDirection
  have key : ∀ (l : List Gamepad) (st : ℚ × ℚ), (0 ≤ st.2 ∧ st.2 < 360) →
      0 ≤ (l.foldl
        (fun (st : ℚ × ℚ) gamepad =>
          if pairMagnitude M cfg gamepad axis > st.1 then
            (pairMagnitude M cfg gamepad axis, pairDirection M cfg gamepad axis)
          else st) st).2 ∧
      (l.foldl
        (fun (st : ℚ × ℚ) gamepad =>
          if pairMagnitude M cfg gamepad axis > st.1 then
            (pairMagnitude M cfg gamepad axis, pairDirection M cfg gamepad axis)
          else st) st).2 < 360 := by
    intro l
    induction l with
    | nil => intro st hst; exact hst
    | cons g t ih =>
      intro st hst
      simp only [List.foldl_cons]
      apply ih
      split_ifs
      · exact pairDirection_range_of_exact M hrnd hPI hatan cfg g axis
      · exact hst
  exact key _ (0, 90) (by norm_num)

end GamepadExtension
